import Mathlib

/-!
Verification development for the goBits `sqlBits` package: a mutable,
dialect-aware SQL statement builder.  The Go source is embedded shallowly:
strings are lists of characters, Go maps are association lists (with an
explicit iteration-order parameter where the Go `range` order matters),
pointers that may be nil are `Option`, and the external database
collaborator (`DbTransactioner`) is an instrumented state that records how
often each of its methods was invoked.
-/

namespace SqlBits

/-- Strings of the embedded program are lists of characters. -/
abbrev Chars := List Char

/-- Convenience conversion from a Lean string literal to `Chars`. -/
def str (s : String) : Chars := s.data

/-- The decimal digit character for `n < 10` (codepoint 48 + n). -/
def digitChar (n : Nat) : Char := Char.ofNat (48 + n)

/-- Fuel-driven core of the decimal rendering of a natural number.
Structural recursion on the fuel keeps the definition kernel-reducible. -/
def itoaCore : Nat → Nat → Chars
  | 0, _ => []
  | fuel + 1, n =>
    if n < 10 then [digitChar n]
    else itoaCore fuel (n / 10) ++ [digitChar (n % 10)]

/-- Embeds `strconv.Itoa` for non-negative values (every call site in the
source guards the argument to be positive). -/
def itoa (n : Nat) : Chars := itoaCore (n + 1) n

/-- Reads a digit string back as a number; used only to prove `itoa`
injective. -/
def ofDigits (l : Chars) : Nat := l.foldl (fun a c => 10 * a + (c.toNat - 48)) 0

/-- Embeds Go `unicode.IsSpace` on the characters that can actually occur in
an operator string (ASCII whitespace plus the two Latin-1 spaces). -/
def goIsSpace (c : Char) : Bool :=
  c = ' ' || c = '\t' || c = '\n' || c = '\x0b' || c = '\x0c' || c = '\r' ||
  c = '\u0085' || c = ' '

/-- Embeds Go `strings.TrimSpace`: drop unicode whitespace from both ends. -/
def trimSpace (s : Chars) : Chars :=
  ((s.dropWhile goIsSpace).reverse.dropWhile goIsSpace).reverse

/-- Embeds Go `strings.TrimRight s cutset`: drop trailing characters that
occur in `cutset`. -/
def goTrimRight (s cutset : Chars) : Chars :=
  (s.reverse.dropWhile (fun c => cutset.contains c)).reverse

/-- Lookup in an association list modelling a Go map: `none` means the key
is absent, `some v` that the key is present with value `v` (which is itself
an `Option` wherever the Go map stores a nilable pointer). -/
def lookupP {α : Type} : List (Chars × α) → Chars → Option α
  | [], _ => none
  | (k, v) :: rest, key => if k = key then some v else lookupP rest key

/-- Map update modelling Go `m[key] = v`: replace the binding if the key is
present, append it otherwise. -/
def insertP {α : Type} : List (Chars × α) → Chars → α → List (Chars × α)
  | [], key, v => [(key, v)]
  | (k, w) :: rest, key, v =>
    if k = key then (key, v) :: rest else (k, w) :: insertP rest key v

/-- Embeds Go `strings.Contains s pat`. -/
def containsSub : Chars → Chars → Bool
  | [], pat => pat.isEmpty
  | c :: rest, pat => pat.isPrefixOf (c :: rest) || containsSub rest pat

/-- Embeds Go `strings.Replace s old new 1` (replace the first occurrence).
The source only ever calls it with a non-empty `old` (a ":"-prefixed key). -/
def replaceFirst (old new : Chars) : Chars → Chars
  | [] => []
  | c :: rest =>
    if !old.isEmpty && old.isPrefixOf (c :: rest) then
      new ++ (c :: rest).drop old.length
    else c :: replaceFirst old new rest

/-- Scanner for `replaceAll`: `skip` counts characters already consumed by a
previous match (Go replaces non-overlapping occurrences left to right). -/
def replaceAllAux (old new : Chars) : Chars → Nat → Chars
  | [], _ => []
  | _ :: rest, skip + 1 => replaceAllAux old new rest skip
  | c :: rest, 0 =>
    if !old.isEmpty && old.isPrefixOf (c :: rest) then
      new ++ replaceAllAux old new rest (old.length - 1)
    else c :: replaceAllAux old new rest 0

/-- Embeds Go `strings.Replace s old new (-1)` (replace every occurrence).
The source only ever calls it with a non-empty `old`. -/
def replaceAll (old new s : Chars) : Chars := replaceAllAux old new s 0

/-- Position scanner for `indexOfSub`. -/
def indexOfAux : Chars → Chars → Nat → Int
  | [], pat, i => if pat.isEmpty then Int.ofNat i else -1
  | c :: rest, pat, i =>
    if pat.isPrefixOf (c :: rest) then Int.ofNat i else indexOfAux rest pat (i + 1)

/-- Embeds Go `strings.Index s pat`: byte index of the first occurrence, -1
when absent. -/
def indexOfSub (s pat : Chars) : Int := indexOfAux s pat 0

/-! ## Protocol constants (src/sqlBits/consts.go, src/sqlBits/drivers.go) -/

/-- consts.go: standard SQL not-equal token. -/
def OPERATOR_NOT_EQUAL : Chars := str "<>"

/-- consts.go: comment hint opening a field list containing a nested select. -/
def FIELD_LIST_HINT_START : Chars := str "/* FIELDLIST */"

/-- consts.go: comment hint closing a field list containing a nested select. -/
def FIELD_LIST_HINT_END : Chars := str "/* /FIELDLIST */"

/-- drivers.go: `DriverName` is a string type; these are its constants. -/
abbrev DriverName := Chars

def MySQL : DriverName := str "MySQL"

def PostgreSQL : DriverName := str "PostgreSQL"

def SQLite : DriverName := str "SQLite3"

/-- drivers.go `DriverInfo` (the `Type reflect.Type` field, used only by the
driver registry, carries no behaviour and is omitted). -/
structure DriverInfo where
  name : DriverName
  identifierDelimiter : Char
  supportsNamedParams : Bool

/-- Instrumented state of the external `DbTransactioner` collaborator
(drivers.go).  `inTx` is what `InTransaction()` reports; the three counters
record how often each underlying primitive has been invoked, which is the
observable the transaction-nesting claims speak about. -/
structure TxModel where
  inTx : Bool
  begins : Nat
  commits : Nat
  rollbacks : Nat

/-- The collaborator's `BeginTransaction`: records the call and reports
being inside a transaction afterwards. -/
def txBegin (m : TxModel) : TxModel :=
  { m with inTx := true, begins := m.begins + 1 }

/-- The collaborator's `CommitTransaction`. -/
def txCommit (m : TxModel) : TxModel :=
  { m with inTx := false, commits := m.commits + 1 }

/-- The collaborator's `RollbackTransaction`. -/
def txRollback (m : TxModel) : TxModel :=
  { m with inTx := false, rollbacks := m.rollbacks + 1 }

/-- The `IDataSource` interface: external supplier of parameter values. -/
structure DataSource where
  isKeyDefined : Chars → Bool
  isKeyValueAList : Chars → Bool
  getValueForKey : Chars → Option Chars
  getValueListForKey : Chars → Option (List Chars)

/-- The `Builder` struct.  `myParams` maps a key to a `*string`
(`Option Chars`); `mySetParams` maps a key to a `*[]string`
(`Option (List Chars)`).  The `myDbModel` collaborator is split into its two
halves: `meta` is what `GetDbMeta()` returns (never nil: `WithModel` panics
on a nil modeler, so every live builder has one) and `tx` the instrumented
transaction collaborator.  `myParamPre` embeds the source field
`myParamPrefix`. -/
structure Builder where
  meta : DriverInfo
  tx : TxModel
  myTransactionFlag : Int
  myDataSource : Option DataSource
  mySql : Chars
  myParams : List (Chars × Option Chars)
  myOrdQuerySql : Chars
  myOrdQueryArgs : List Chars
  mySetParams : List (Chars × Option (List Chars))
  myParamPre : Chars
  myParamOperator : Chars
  bUseIsNull : Bool

/-- `Reset`: clears text, parameter tables and the modal flags; keeps the
dialect binding, data source, transaction flag and ordinal-query fields. -/
def Reset (b : Builder) : Builder :=
  { b with
    mySql := []
    myParams := []
    mySetParams := []
    myParamPre := str " "
    myParamOperator := str "="
    bUseIsNull := false }

/-- `NewBuilder` / `WithModel`: binds the dialect and resets.  The nil-model
panic cannot arise here because `meta` and `tx` are passed by value. -/
def NewBuilder (meta : DriverInfo) (tx : TxModel) : Builder :=
  Reset
    { meta := meta, tx := tx, myTransactionFlag := 0, myDataSource := none
      mySql := [], myParams := [], myOrdQuerySql := [], myOrdQueryArgs := []
      mySetParams := [], myParamPre := [], myParamOperator := []
      bUseIsNull := false }

/-- `BeginTransaction`: only when the flag is below 1 and the collaborator
does not already report a transaction is the underlying begin issued; the
flag is always incremented. -/
def BeginTransaction (b : Builder) : Builder :=
  let b1 :=
    if b.myTransactionFlag < 1 then
      if !b.tx.inTx then { b with tx := txBegin b.tx } else b
    else b
  { b1 with myTransactionFlag := b1.myTransactionFlag + 1 }

/-- `CommitTransaction`: decrement only when positive; issue the underlying
commit exactly when the decrement reaches 0. -/
def CommitTransaction (b : Builder) : Builder :=
  if b.myTransactionFlag > 0 then
    if b.myTransactionFlag - 1 = 0 then
      { b with myTransactionFlag := b.myTransactionFlag - 1, tx := txCommit b.tx }
    else { b with myTransactionFlag := b.myTransactionFlag - 1 }
  else b

/-- `RollbackTransaction`: mirror image of `CommitTransaction`. -/
def RollbackTransaction (b : Builder) : Builder :=
  if b.myTransactionFlag > 0 then
    if b.myTransactionFlag - 1 = 0 then
      { b with myTransactionFlag := b.myTransactionFlag - 1, tx := txRollback b.tx }
    else { b with myTransactionFlag := b.myTransactionFlag - 1 }
  else b

/-- `GetQuoted`: wrap the identifier in the dialect's delimiter, doubling
any embedded delimiter (`strings.Replace` with count -1). -/
def GetQuoted (b : Builder) (aIdentifier : Chars) : Chars :=
  let delim : Chars := [b.meta.identifierDelimiter]
  delim ++ replaceAll delim (delim ++ delim) aIdentifier ++ delim

/-- `StartWith`: replace the accumulated text. -/
def StartWith (b : Builder) (aSql : Chars) : Builder := { b with mySql := aSql }

/-- `SetParamPrefix` in the source: set the glue string. -/
def SetParamPre (b : Builder) (aStr : Chars) : Builder := { b with myParamPre := aStr }

/-- `SetParamOperator`: converts the common mistake "!=" to the canonical
not-equal token, then stores the operator. -/
def SetParamOperator (b : Builder) (aStr : Chars) : Builder :=
  { b with myParamOperator := replaceAll (str "!=") OPERATOR_NOT_EQUAL aStr }

/-- `StartFilter`: enter filter mode, seed an always-true literal picked by
dialect, and glue subsequent predicates with " AND ". -/
def StartFilter (b : Builder) : Builder :=
  let b1 := { b with bUseIsNull := true }
  let b2 :=
    if b1.meta.name = MySQL then StartWith b1 (str "1")
    else if b1.meta.name = PostgreSQL then StartWith b1 (str "true")
    else StartWith b1 (str "true")
  SetParamPre b2 (str " AND ")

/-- `StartWhereClause`. -/
def StartWhereClause (b : Builder) : Builder :=
  SetParamPre { b with bUseIsNull := true } (str " WHERE ")

/-- `EndWhereClause`. -/
def EndWhereClause (b : Builder) : Builder := { b with bUseIsNull := false }

/-- `Add`: append a space and the fragment. -/
def Add (b : Builder) (aStr : Chars) : Builder :=
  { b with mySql := b.mySql ++ str " " ++ aStr }

/-- `SetNullableParam`: store a possibly-nil scalar under the key. -/
def SetNullableParam (b : Builder) (aParamKey : Chars) (aParamValue : Option Chars) : Builder :=
  { b with myParams := insertP b.myParams aParamKey aParamValue }

/-- `SetParam`: store a scalar under the key. -/
def SetParam (b : Builder) (aParamKey aParamValue : Chars) : Builder :=
  SetNullableParam b aParamKey (some aParamValue)

/-- `SetParamSet`: store a value list under the key AND mark the key in the
scalar table with the nil marker. -/
def SetParamSet (b : Builder) (aParamKey : Chars) (aParamValues : Option (List Chars)) : Builder :=
  { b with
    myParams := insertP b.myParams aParamKey none
    mySetParams := insertP b.mySetParams aParamKey aParamValues }

/-- `IsParamASet`: a key known to `myParams` is a set iff it is also in
`mySetParams`; an unknown key defers to the data source; otherwise false. -/
def IsParamASet (b : Builder) (aParamKey : Chars) : Bool :=
  match lookupP b.myParams aParamKey with
  | some _ => (lookupP b.mySetParams aParamKey).isSome
  | none =>
    match b.myDataSource with
    | some ds => ds.isKeyValueAList aParamKey
    | none => false

/-- `GetParam`: the stored scalar pointer, nil when the key is absent. -/
def GetParam (b : Builder) (aParamKey : Chars) : Option Chars :=
  (lookupP b.myParams aParamKey).join

/-- `GetParamSet`: the stored list pointer, nil when the key is absent. -/
def GetParamSet (b : Builder) (aParamKey : Chars) : Option (List Chars) :=
  (lookupP b.mySetParams aParamKey).join

/-- `getParamValueFromDataSource`: pull the key's value (scalar or list)
from the data source when one is bound. -/
def getParamValueFromDataSource (b : Builder) (aParamKey : Chars) : Builder :=
  match b.myDataSource with
  | none => b
  | some ds =>
    if ds.isKeyValueAList aParamKey then
      SetParamSet b aParamKey (ds.getValueListForKey aParamKey)
    else
      SetNullableParam b aParamKey (ds.getValueForKey aParamKey)

/-- `SetParamValueIfNull`: after pulling from the data source, overwrite
with the default when the key is an empty/nil set, or a non-set with a nil
scalar. -/
def SetParamValueIfNull (b : Builder) (aParamKey aNewValue : Chars) : Builder :=
  let b1 := getParamValueFromDataSource b aParamKey
  let isSet := IsParamASet b1 aParamKey
  if isSet && ((GetParamSet b1 aParamKey).getD []).isEmpty then
    SetParam b1 aParamKey aNewValue
  else if !isSet && (GetParam b1 aParamKey).isNone then
    SetParam b1 aParamKey aNewValue
  else b1

/-- Loop body of `addParamAsListForColumn`: for each element append
`:key_i,` to the text and store `key_i ↦ element`; `i` starts at 1. -/
def listParamLoop (aParamKey : Chars) :
    Nat → List Chars → Chars × List (Chars × Option Chars) →
    Chars × List (Chars × Option Chars)
  | _, [], st => st
  | i, v :: vs, (sqlAcc, ps) =>
    let theParamKey := (aParamKey ++ str "_") ++ itoa i
    listParamLoop aParamKey (i + 1) vs
      (sqlAcc ++ str ":" ++ theParamKey ++ str ",", insertP ps theParamKey (some v))

/-- `addParamAsListForColumn`: render `<prefix><quoted column><operator>(`
followed by one fresh `:key_i` placeholder per element, then trim the
trailing comma (Go trims every trailing comma of the whole string) and close
the parenthesis; no-op for a nil or empty list. -/
def addParamAsListForColumn (b : Builder) (aColumnName aParamKey : Chars)
    (aDataValuesList : Option (List Chars)) : Builder :=
  match aDataValuesList with
  | none => b
  | some vals =>
    if vals.isEmpty then b
    else
      let sql0 := b.mySql ++ b.myParamPre ++ GetQuoted b aColumnName ++
        b.myParamOperator ++ str "("
      let st := listParamLoop aParamKey 1 vals (sql0, b.myParams)
      { b with mySql := goTrimRight st.1 (str ",") ++ str ")", myParams := st.2 }

/-- The guard of `addingParam`'s first branch: the key is reported as a set
and the locally stored list pointer is non-nil and non-empty. -/
def hasNonEmptySetFor (b : Builder) (aParamKey : Chars) : Bool :=
  IsParamASet b aParamKey && !((GetParamSet b aParamKey).getD []).isEmpty

/-- `addingParam`, the central binding procedure.  Set-valued keys with a
non-empty list: remap `=`/`<>` to ` IN `/` NOT IN ` (comparing the
space-trimmed operator), render the list, restore the operator.  Otherwise:
a non-nil scalar, or `bUseIsNull` unset, renders a named placeholder; a nil
value in null mode renders `IS NULL` for `=`, `IS NOT NULL` for `<>`, and
nothing for any other operator. -/
def addingParam (b : Builder) (aColName aParamKey : Chars) : Builder :=
  if hasNonEmptySetFor b aParamKey then
    let saveParamOp := b.myParamOperator
    let op1 :=
      if trimSpace b.myParamOperator = str "=" then str " IN "
      else if trimSpace b.myParamOperator = OPERATOR_NOT_EQUAL then str " NOT IN "
      else b.myParamOperator
    let b1 := addParamAsListForColumn { b with myParamOperator := op1 }
      aColName aParamKey (GetParamSet b aParamKey)
    { b1 with myParamOperator := saveParamOp }
  else
    if (GetParam b aParamKey).isSome || !b.bUseIsNull then
      { b with mySql := b.mySql ++ b.myParamPre ++ GetQuoted b aColName ++
          b.myParamOperator ++ str ":" ++ aParamKey }
    else if trimSpace b.myParamOperator = str "=" then
      { b with mySql := b.mySql ++ b.myParamPre ++ GetQuoted b aColName ++ str " IS NULL" }
    else if trimSpace b.myParamOperator = OPERATOR_NOT_EQUAL then
      { b with mySql := b.mySql ++ b.myParamPre ++ GetQuoted b aColName ++ str " IS NOT NULL" }
    else b

/-- `AppendParam`: bind the literal value, then apply the procedure. -/
def AppendParam (b : Builder) (aParamKey aParamValue : Chars) : Builder :=
  addingParam (SetParam b aParamKey aParamValue) aParamKey aParamKey

/-- `MustAddParamForColumn`: pull from the data source, then apply the
procedure to the given column. -/
def MustAddParamForColumn (b : Builder) (aParamKey aColumnName : Chars) : Builder :=
  addingParam (getParamValueFromDataSource b aParamKey) aColumnName aParamKey

/-- `MustAddParam`. -/
def MustAddParam (b : Builder) (aParamKey : Chars) : Builder :=
  MustAddParamForColumn b aParamKey aParamKey

/-- `AddQueryLimit`.  Go `switch` arms do not fall through: the empty
`case MySQL:` and `case PostgreSQL:` arms match and do nothing, so only the
`default` arm (any other dialect) emits the clause.  `myDbModel` is never
nil for a live builder. -/
def AddQueryLimit (b : Builder) (aLimit aOffset : Int) : Builder :=
  if 0 < aLimit then
    if b.meta.name = MySQL then b
    else if b.meta.name = PostgreSQL then b
    else
      let b1 := Add (Add b (str "LIMIT")) (itoa aLimit.toNat)
      if 0 < aOffset then Add (Add b1 (str "OFFSET")) (itoa aOffset.toNat) else b1
  else b

/-- The two regular-expression pattern literals of
`ReplaceSelectFieldsWith`. -/
def hintedFieldPattern : Chars :=
  str "(?i)SELECT /* FIELDLIST */ .+? /* /FIELDLIST */ FROM"

def plainFieldPattern : Chars := str "(?i)SELECT .+? FROM"

/-- Models the acceptance of Go `regexp.MustCompilePOSIX` for the patterns
above.  `CompilePOSIX` parses with `syntax.POSIX` flags, i.e. without the
`PerlX` extensions, under which the flag group `(?i)` is not syntax: after
reading `(` the parser sees `?` with no completed operand on the stack and
fails with `ErrMissingRepeatArgument`, so `MustCompilePOSIX` panics.  Both
patterns used by the source begin with `(?`, which makes the failure
unconditional, and that is the only case this model must decide. -/
def goPosixRejects (p : Chars) : Bool := (str "(?").isPrefixOf p

/-- `ReplaceSelectFieldsWith`.  A nil or empty field list is a no-op; for a
non-empty list the source compiles one of the two patterns with
`regexp.MustCompilePOSIX`, which panics (modelled by `none`) whenever the
parser rejects the pattern.  The replacement arm is unreachable for the two
pattern literals above and is kept as the identity. -/
def ReplaceSelectFieldsWith (b : Builder) (aSelectFields : Option (List Chars)) :
    Option Builder :=
  match aSelectFields with
  | none => some b
  | some fields =>
    if fields.isEmpty then some b
    else
      let pattern :=
        if indexOfSub b.mySql FIELD_LIST_HINT_START > 0 &&
            indexOfSub b.mySql FIELD_LIST_HINT_END > 0 then
          hintedFieldPattern
        else plainFieldPattern
      if goPosixRejects pattern then none
      else some b

/-- Conversion loop of `SQL()`: Go iterates `myParams` with `range`, whose
order is unspecified (and randomised by the runtime); the embedding receives
that order explicitly as the list of keys to visit.  A visited key whose
`:key` placeholder occurs in the working text and whose value is non-nil has
its first occurrence replaced by the next `$n` and its value appended to the
argument list (`i` always equals `args.length + 1`). -/
def sqlConvLoop (params : List (Chars × Option Chars)) :
    List Chars → Chars → List Chars → Chars × List Chars
  | [], sqlAcc, args => (sqlAcc, args)
  | k :: ks, sqlAcc, args =>
    match lookupP params k with
    | none => sqlConvLoop params ks sqlAcc args
    | some v =>
      let theOldKey := str ":" ++ k
      if containsSub sqlAcc theOldKey && v.isSome then
        let theNewKey := str "$" ++ itoa (args.length + 1)
        sqlConvLoop params ks (replaceFirst theOldKey theNewKey sqlAcc)
          (args ++ [v.getD []])
      else sqlConvLoop params ks sqlAcc args

/-- `SQL()`: when parameters exist and the dialect does not support named
parameters, run the one-way positional conversion over the given map
iteration `order`, storing the result in `myOrdQuerySql`/`myOrdQueryArgs`
(the argument list is appended to, never reset); otherwise the builder is
untouched and the named text is returned as-is. -/
def SQLwithOrder (b : Builder) (order : List Chars) : Builder :=
  if !b.myParams.isEmpty && !b.meta.supportsNamedParams then
    let st := sqlConvLoop b.myParams order b.mySql b.myOrdQueryArgs
    { b with myOrdQuerySql := st.1, myOrdQueryArgs := st.2 }
  else b

/-- The string `SQL()` returns for the given iteration order. -/
def SQLresult (b : Builder) (order : List Chars) : Chars :=
  if !b.myParams.isEmpty && !b.meta.supportsNamedParams then
    (SQLwithOrder b order).myOrdQuerySql
  else b.mySql

/-! ## Reference semantics of Go maps, for `CloneAsAggregate`
(src/sqlBits/consts.go).  A Go map value is a header pointing at a shared
hash table, so a struct assignment `theNewBuilder := *sqlbldr` (consts.go
line 64) copies the header and both structs afterwards reference the same
table.  The heap of parameter tables is made explicit: a builder holds an
index into the store, and the clone step copies the index. -/

/-- The store of `myParams` hash tables. -/
structure GoMapHeap where
  tables : List (List (Chars × Option Chars))

/-- A builder as CloneAsAggregate sees it: value fields are copied (only
the text matters here), the parameter table is held by reference. -/
structure BuilderRef where
  paramsRef : Nat
  mySqlV : Chars

/-- Read a builder's parameter table out of the heap. -/
def heapTable (h : GoMapHeap) (b : BuilderRef) : List (Chars × Option Chars) :=
  h.tables.getD b.paramsRef []

/-- The cloning step of `CloneAsAggregate` (`theNewBuilder := *sqlbldr`):
a Go struct assignment copies every field, including the map header, so the
clone references the same underlying table. -/
def cloneAsAggregateCopyStep (b : BuilderRef) : BuilderRef := b

/-- `SetParam` through a builder reference: writes through the map header
into the shared table. -/
def SetParamRef (h : GoMapHeap) (b : BuilderRef) (k v : Chars) : GoMapHeap :=
  { tables := h.tables.set b.paramsRef (insertP (heapTable h b) k (some v)) }

/-- Read one parameter through a builder reference. -/
def GetParamRef (h : GoMapHeap) (b : BuilderRef) (k : Chars) : Option (Option Chars) :=
  lookupP (heapTable h b) k

/-! ## Transaction-operation sequences -/

/-- One public transaction operation. -/
inductive TxOp where
  | beginT
  | commitT
  | rollbackT

/-- Run one transaction operation. -/
def applyTxOp (b : Builder) : TxOp → Builder
  | TxOp.beginT => BeginTransaction b
  | TxOp.commitT => CommitTransaction b
  | TxOp.rollbackT => RollbackTransaction b

/-- Run a sequence of transaction operations. -/
def runTxOps (ops : List TxOp) (b : Builder) : Builder := ops.foldl applyTxOp b

/-! ## Statement-side descriptions used by the claim theorems -/

/-- The placeholder list `(:key_1,:key_2,...,:key_n)` without the
parentheses: what `addParamAsListForColumn` renders between them. -/
def phs (key : Chars) : Nat → List Chars → Chars
  | _, [] => []
  | i, _ :: vs =>
    str ":" ++ ((key ++ str "_") ++ itoa i) ++
      (if vs.isEmpty then [] else str ",") ++ phs key (i + 1) vs

/-- The same list with a comma after every placeholder: what the loop has
rendered before the trailing comma is trimmed. -/
def phsC (key : Chars) : Nat → List Chars → Chars
  | _, [] => []
  | i, _ :: vs =>
    str ":" ++ ((key ++ str "_") ++ itoa i) ++ str "," ++ phsC key (i + 1) vs

/-- The operator after the set-binding remap: `=` becomes ` IN `, the
canonical not-equal becomes ` NOT IN `, anything else is unchanged. -/
def setMappedOp (op : Chars) : Chars :=
  if trimSpace op = str "=" then str " IN "
  else if trimSpace op = OPERATOR_NOT_EQUAL then str " NOT IN "
  else op

/-- Character-wise restatement of delimiter doubling: every delimiter
character of the identifier is doubled, everything else kept. -/
def doubledDelim (d : Char) (s : Chars) : Chars :=
  s.flatMap fun c => if c = d then [d, d] else [c]

/-! ## Concrete instances for counterexamples and witnesses -/

/-- A collaborator that is not in a transaction and has seen no calls. -/
def freshTx : TxModel := ⟨false, 0, 0, 0⟩

/-- The PostgreSQL dialect profile (drivers.go: delimiter `"`). -/
def pgMeta : DriverInfo := ⟨PostgreSQL, '"', true⟩

/-- The MySQL dialect profile (drivers.go: delimiter a backtick). -/
def myMeta : DriverInfo := ⟨MySQL, '\x60', true⟩

/-- The SQLite3 dialect profile; like every registered driver its
`SupportsNamedParams` is the zero value false, which makes it exercise the
positional conversion and the generic limit clause. -/
def liteMeta : DriverInfo := ⟨SQLite, '"', false⟩

/-- C1 witness state: a fresh PostgreSQL builder in WHERE mode whose key
`status` is acknowledged with a nil value. -/
def bC1 : Builder :=
  SetNullableParam (StartWhereClause (NewBuilder pgMeta freshTx)) (str "status") none

/-- C2 witness state: a fresh PostgreSQL builder with `ids` bound to the
value list ["1","2","3"]. -/
def bC2 : Builder :=
  SetParamSet (NewBuilder pgMeta freshTx) (str "ids") (some [str "1", str "2", str "3"])

/-- C4 state: builders of each dialect holding a started statement. -/
def bC4pg : Builder := StartWith (NewBuilder pgMeta freshTx) (str "SELECT * FROM t")

def bC4my : Builder := StartWith (NewBuilder myMeta freshTx) (str "SELECT * FROM t")

def bC4lite : Builder := StartWith (NewBuilder liteMeta freshTx) (str "SELECT * FROM t")

/-- C5 state: a no-named-parameters builder holding the non-null parameters
`a` and `b` (placeholders in that textual order) and the null parameter `c`. -/
def bC5 (va vb : Chars) : Builder :=
  SetNullableParam
    (SetNullableParam
      (SetNullableParam
        (StartWith (NewBuilder liteMeta freshTx)
          (str "SELECT * FROM t WHERE x=:a AND y=:b AND z=:c"))
        (str "a") (some va))
      (str "b") (some vb))
    (str "c") none

/-- C6 counterexample state: `x` is made set-valued, then `SetParam`
overwrites its scalar marker with a real value. -/
def bC6 : Builder :=
  SetParam (SetParamSet (NewBuilder pgMeta freshTx) (str "x") (some [str "v"]))
    (str "x") (str "w")

/-- C7 state: a builder holding a plain SELECT statement. -/
def bC7 : Builder := StartWith (NewBuilder pgMeta freshTx) (str "SELECT a FROM t")

/-- C8 counterexample state: `k` is marked set-valued with an empty list. -/
def bC8 : Builder := SetParamSet (NewBuilder pgMeta freshTx) (str "k") (some [])

/-- C3 heap: one builder whose (empty) parameter table lives at index 0. -/
def heapC3 : GoMapHeap := ⟨[[]]⟩

def bRefC3 : BuilderRef := ⟨0, str "SELECT * FROM t"⟩

/-- The clause `addingParam` appends in its scalar/null branch (the branch
taken when the key is not a non-empty set): a named placeholder when the
scalar is non-nil or null mode is off; otherwise the NULL checks for the
two equality operators and nothing for any other operator. -/
def scalarClause (b : Builder) (col k : Chars) : Chars :=
  if (GetParam b k).isSome || !b.bUseIsNull then
    b.myParamPre ++ GetQuoted b col ++ b.myParamOperator ++ str ":" ++ k
  else if trimSpace b.myParamOperator = str "=" then
    b.myParamPre ++ GetQuoted b col ++ str " IS NULL"
  else if trimSpace b.myParamOperator = OPERATOR_NOT_EQUAL then
    b.myParamPre ++ GetQuoted b col ++ str " IS NOT NULL"
  else []

/-! ## Helper lemmas -/

theorem lookupP_insertP_self {α : Type} (ps : List (Chars × α)) (k : Chars) (v : α) :
    lookupP (insertP ps k v) k = some v := by
  induction ps with
  | nil => simp [insertP, lookupP]
  | cons p rest ih =>
    obtain ⟨k1, w⟩ := p
    by_cases h : k1 = k <;> simp [insertP, lookupP, h, ih]

theorem lookupP_insertP_ne {α : Type} (ps : List (Chars × α)) (k k1 : Chars) (v : α)
    (h : k1 ≠ k) : lookupP (insertP ps k1 v) k = lookupP ps k := by
  induction ps with
  | nil => simp [insertP, lookupP, h]
  | cons p rest ih =>
    obtain ⟨k2, w⟩ := p
    by_cases h2 : k2 = k1 <;> by_cases h3 : k2 = k <;>
      simp_all [insertP, lookupP]

theorem replaceAllAux_singleton (d : Char) (s : Chars) :
    replaceAllAux [d] [d, d] s 0 = doubledDelim d s := by
  induction s with
  | nil => simp [replaceAllAux, doubledDelim]
  | cons c rest ih =>
    by_cases h : d = c
    · subst h
      simp [replaceAllAux, List.isPrefixOf, doubledDelim, ih]
    · simp [replaceAllAux, List.isPrefixOf, doubledDelim, h, Ne.symm h, ih]

theorem addingParam_scalar_shape (b : Builder) (col k : Chars)
    (h : hasNonEmptySetFor b k = false) :
    (addingParam b col k).mySql = b.mySql ++ scalarClause b col k := by
  rw [addingParam, scalarClause, if_neg (by simp [h])]
  split
  · simp [List.append_assoc]
  · split
    · simp [List.append_assoc]
    · split
      · simp [List.append_assoc]
      · simp

/-! ## Claim theorems -/

/-- C10: `GetQuoted` returns the identifier wrapped in the dialect's
delimiter with every embedded delimiter doubled, so the result always
begins and ends with the delimiter and an identifier cannot close its own
quoting. -/
theorem getQuoted_spec (b : Builder) (s : Chars) :
    GetQuoted b s =
      [b.meta.identifierDelimiter] ++ doubledDelim b.meta.identifierDelimiter s ++
        [b.meta.identifierDelimiter] ∧
    (GetQuoted b s).head? = some b.meta.identifierDelimiter ∧
    (GetQuoted b s).getLast? = some b.meta.identifierDelimiter := by
  have hmain : GetQuoted b s =
      [b.meta.identifierDelimiter] ++ doubledDelim b.meta.identifierDelimiter s ++
        [b.meta.identifierDelimiter] := by
    simp [GetQuoted, replaceAll, replaceAllAux_singleton]
  refine ⟨hmain, ?_, ?_⟩
  · rw [hmain]; rfl
  · rw [hmain]
    exact List.getLast?_concat _

/-- C3: the cloning step of `CloneAsAggregate` is a Go struct assignment,
which copies the `myParams` map header rather than the table; clone and
original therefore share one table, and a `SetParam` through the clone is
visible through the original — refuting the value-copy claim at a concrete
input. -/
theorem cloneAsAggregate_shares_param_table :
    (cloneAsAggregateCopyStep bRefC3).paramsRef = bRefC3.paramsRef ∧
    GetParamRef heapC3 bRefC3 (str "x") = none ∧
    GetParamRef (SetParamRef heapC3 (cloneAsAggregateCopyStep bRefC3) (str "x") (str "1"))
      bRefC3 (str "x") = some (some (str "1")) := by
  decide

/-- C4: with `limit = 10, offset = 5` the MySQL and PostgreSQL dialects hit
the empty (non-falling-through) switch arms of `AddQueryLimit` and append
nothing, while a not-special-cased dialect (SQLite3) gets the generic
clause; `limit <= 0` appends nothing and `offset <= 0` drops only the
OFFSET term. -/
theorem addQueryLimit_dialect_gap :
    (AddQueryLimit bC4my 10 5).mySql = bC4my.mySql ∧
    (AddQueryLimit bC4pg 10 5).mySql = bC4pg.mySql ∧
    (AddQueryLimit bC4lite 10 5).mySql = str "SELECT * FROM t LIMIT 10 OFFSET 5" ∧
    (AddQueryLimit bC4lite 10 0).mySql = str "SELECT * FROM t LIMIT 10" ∧
    (AddQueryLimit bC4lite 0 5).mySql = bC4lite.mySql := by
  decide

/-- C7: on a builder holding `SELECT a FROM t`, replacing the field list
with `["a","b"]` selects the plain pattern, and `MustCompilePOSIX` panics
on it (both pattern literals start with the Perl-only `(?i)` group, which
POSIX ERE parsing rejects), modelled by `none`: the span is never
replaced. -/
theorem replaceSelectFields_panics :
    ReplaceSelectFieldsWith bC7 (some [str "a", str "b"]) = none ∧
    goPosixRejects plainFieldPattern = true ∧
    goPosixRejects hintedFieldPattern = true := by
  exact ⟨rfl, by decide, by decide⟩

/-- C6 counterexample: `SetParamSet` then `SetParam` on the same key is a
reachable two-step sequence after which `x` is still in `parameterSets`
while `parameters` maps it to the scalar "w", not the null marker. -/
theorem setParamSet_invariant_breakable :
    lookupP bC6.mySetParams (str "x") = some (some [str "v"]) ∧
    lookupP bC6.myParams (str "x") = some (some (str "w")) ∧
    (some (some (str "w")) : Option (Option Chars)) ≠ some none := by
  decide

/-- C6 amended: the operation that inserts a key into `parameterSets`
(`SetParamSet`) does map that key in `parameters` to the null marker at the
moment of insertion; the property is an effect of the inserting operation,
not an invariant of all reachable states. -/
theorem setParamSet_marks_key_null (b : Builder) (k : Chars) (vs : Option (List Chars)) :
    lookupP (SetParamSet b k vs).myParams k = some none ∧
    lookupP (SetParamSet b k vs).mySetParams k = some vs := by
  exact ⟨lookupP_insertP_self b.myParams k none, lookupP_insertP_self b.mySetParams k vs⟩

/-- C8 counterexample: binding key `k`, marked set-valued with an empty
list, via `MustAddParam` is not a no-op — the text grows by a placeholder
clause. -/
theorem emptySet_binding_not_noop :
    bC8.mySql = [] ∧
    (MustAddParam bC8 (str "k")).mySql = str " \"k\"=:k" ∧
    str " \"k\"=:k" ≠ ([] : Chars) := by
  decide

/-- C8 amended: a binding call on a key marked set-valued whose value list
is empty (or nil) falls through to the scalar/null branch of `addingParam`:
it appends the named-placeholder clause when the scalar marker is non-nil
or null mode is off, and the `IS [NOT] NULL`/nothing rendering otherwise —
never nothing-because-set-is-empty. -/
theorem emptySet_binding_falls_through (b : Builder) (col k : Chars)
    (hSet : IsParamASet b k = true)
    (hEmpty : ((GetParamSet b k).getD []).isEmpty = true) :
    (addingParam b col k).mySql = b.mySql ++ scalarClause b col k := by
  apply addingParam_scalar_shape
  simp [hasNonEmptySetFor, hSet, hEmpty]

/-- Witness for the amended C8 at the concrete empty-set state. -/
theorem emptySet_binding_falls_through_witness :
    IsParamASet bC8 (str "k") = true ∧
    ((GetParamSet bC8 (str "k")).getD []).isEmpty = true ∧
    (addingParam bC8 (str "k") (str "k")).mySql = str " \"k\"=:k" := by
  refine ⟨by decide, by decide, ?_⟩
  exact (emptySet_binding_falls_through bC8 (str "k") (str "k") (by decide) (by decide)).trans
    (by decide)

/-- C1: on a key that is not a non-empty set, `addingParam` appends the
named placeholder `<prefix><quoted column><operator>:<key>` when the scalar
value is non-nil or null mode is off, and otherwise ` IS NULL` for the
trimmed operator `=`, ` IS NOT NULL` for `<>`, and nothing for any other
operator. -/
theorem addingParam_scalar_spec (b : Builder) (col k : Chars)
    (h : hasNonEmptySetFor b k = false) :
    (addingParam b col k).mySql = b.mySql ++ scalarClause b col k :=
  addingParam_scalar_shape b col k h

/-- Witness for C1: equality in WHERE mode with a nil value renders
`IS NULL` under PostgreSQL quoting. -/
theorem addingParam_scalar_spec_witness :
    hasNonEmptySetFor bC1 (str "status") = false ∧
    (addingParam bC1 (str "status") (str "status")).mySql =
      str " WHERE \"status\" IS NULL" := by
  refine ⟨by decide, ?_⟩
  exact (addingParam_scalar_spec bC1 (str "status") (str "status") (by decide)).trans
    (by decide)

/-- C5 counterexample: `SQL()` numbers placeholders in the unspecified map
scan order, not in textual order.  Scanning the keys in the order
`b, c, a` — a possible Go `range` order, being a permutation of the key
set — puts `$1` where `:b` was and `$2` where `:a` was and yields the
argument list `[valueOfB, valueOfA]`, not the claimed text and list. -/
theorem sql_positional_order_dependent :
    List.Perm [str "b", str "c", str "a"]
      ((bC5 (str "1") (str "2")).myParams.map Prod.fst) ∧
    (SQLwithOrder (bC5 (str "1") (str "2")) [str "b", str "c", str "a"]).myOrdQuerySql =
      str "SELECT * FROM t WHERE x=$2 AND y=$1 AND z=:c" ∧
    (SQLwithOrder (bC5 (str "1") (str "2")) [str "b", str "c", str "a"]).myOrdQueryArgs =
      [str "2", str "1"] ∧
    str "SELECT * FROM t WHERE x=$2 AND y=$1 AND z=:c" ≠
      str "SELECT * FROM t WHERE x=$1 AND y=$2 AND z=:c" := by
  decide

/-- C5 amended: the conversion follows the scan order of the parameter
table (unspecified in Go): the k-th scanned key with a non-nil value whose
placeholder occurs in the text has its first occurrence replaced by `$k`
and its value appended k-th to the positional list; a nil-valued key (`c`)
is skipped.  When the scan happens to visit `a` before `b` the claimed
rendering holds, under the opposite order the numbering is swapped. -/
theorem sql_positional_scan_order_spec (va vb : Chars) :
    ((SQLwithOrder (bC5 va vb) [str "a", str "b", str "c"]).myOrdQuerySql =
        str "SELECT * FROM t WHERE x=$1 AND y=$2 AND z=:c" ∧
      (SQLwithOrder (bC5 va vb) [str "a", str "b", str "c"]).myOrdQueryArgs = [va, vb]) ∧
    ((SQLwithOrder (bC5 va vb) [str "b", str "c", str "a"]).myOrdQuerySql =
        str "SELECT * FROM t WHERE x=$2 AND y=$1 AND z=:c" ∧
      (SQLwithOrder (bC5 va vb) [str "b", str "c", str "a"]).myOrdQueryArgs = [vb, va]) := by
  exact ⟨⟨rfl, rfl⟩, rfl, rfl⟩

/-- C9 helper: the flag after `BeginTransaction`. -/
theorem beginFlag_eq (b : Builder) :
    (BeginTransaction b).myTransactionFlag = b.myTransactionFlag + 1 := by
  simp only [BeginTransaction]
  split <;> (try split) <;> rfl

/-- C9 helper: the flag after `CommitTransaction`. -/
theorem commitFlag_eq (b : Builder) :
    (CommitTransaction b).myTransactionFlag =
      (if 0 < b.myTransactionFlag then b.myTransactionFlag - 1
        else b.myTransactionFlag) := by
  simp only [CommitTransaction]
  split <;> (try split) <;> simp_all

/-- C9 helper: the flag after `RollbackTransaction`. -/
theorem rollbackFlag_eq (b : Builder) :
    (RollbackTransaction b).myTransactionFlag =
      (if 0 < b.myTransactionFlag then b.myTransactionFlag - 1
        else b.myTransactionFlag) := by
  simp only [RollbackTransaction]
  split <;> (try split) <;> simp_all

/-- C9 nonnegativity helper: every transaction operation keeps the flag
nonnegative. -/
theorem txFlag_nonneg_run (ops : List TxOp) (b : Builder)
    (h : 0 ≤ b.myTransactionFlag) : 0 ≤ (runTxOps ops b).myTransactionFlag := by
  induction ops generalizing b with
  | nil => simpa [runTxOps]
  | cons op rest ih =>
    have hstep : 0 ≤ (applyTxOp b op).myTransactionFlag := by
      cases op <;>
        simp only [applyTxOp, beginFlag_eq, commitFlag_eq, rollbackFlag_eq] <;>
        (try split) <;> omega
    simpa [runTxOps] using ih (applyTxOp b op) hstep

/-- C9: the nesting counter never becomes negative along any operation
sequence from a fresh builder; the collaborator's begin fires exactly when
the flag is below 1 and the collaborator is not already in a transaction;
commit/rollback fire exactly on the decrement that reaches 0 (decrementing
at 0 is a no-op); and two nested begins followed by two commits produce
exactly one underlying begin and one underlying commit. -/
theorem transaction_nesting_spec :
    (∀ (meta : DriverInfo) (tx : TxModel) (ops : List TxOp),
      0 ≤ (runTxOps ops (NewBuilder meta tx)).myTransactionFlag) ∧
    (∀ b : Builder, (BeginTransaction b).tx.begins =
      b.tx.begins + (if b.myTransactionFlag < 1 ∧ b.tx.inTx = false then 1 else 0)) ∧
    (∀ b : Builder, (CommitTransaction b).tx.commits =
      b.tx.commits + (if b.myTransactionFlag = 1 then 1 else 0)) ∧
    (∀ b : Builder, (CommitTransaction b).myTransactionFlag =
      (if 0 < b.myTransactionFlag then b.myTransactionFlag - 1 else b.myTransactionFlag)) ∧
    (∀ b : Builder, (RollbackTransaction b).tx.rollbacks =
      b.tx.rollbacks + (if b.myTransactionFlag = 1 then 1 else 0)) ∧
    ((runTxOps [TxOp.beginT, TxOp.beginT, TxOp.commitT, TxOp.commitT]
        (NewBuilder pgMeta freshTx)).tx.begins = 1 ∧
      (runTxOps [TxOp.beginT, TxOp.beginT, TxOp.commitT, TxOp.commitT]
        (NewBuilder pgMeta freshTx)).tx.commits = 1) := by
  refine ⟨?_, ?_, ?_, ?_, ?_, by decide⟩
  · intro meta tx ops
    exact txFlag_nonneg_run ops (NewBuilder meta tx) (by simp [NewBuilder, Reset])
  · intro b
    by_cases h1 : b.myTransactionFlag < 1 <;> cases h2 : b.tx.inTx <;>
      simp [BeginTransaction, txBegin, h1, h2]
  · intro b
    by_cases h1 : 0 < b.myTransactionFlag
    · by_cases h2 : b.myTransactionFlag - 1 = 0
      · have h3 : b.myTransactionFlag = 1 := by omega
        simp [CommitTransaction, txCommit, h1, h2, h3]
      · have h3 : b.myTransactionFlag ≠ 1 := by omega
        simp [CommitTransaction, txCommit, h1, h2, h3]
    · have h3 : b.myTransactionFlag ≠ 1 := by omega
      simp [CommitTransaction, txCommit, h1, h3]
  · intro b
    exact commitFlag_eq b
  · intro b
    by_cases h1 : 0 < b.myTransactionFlag
    · by_cases h2 : b.myTransactionFlag - 1 = 0
      · have h3 : b.myTransactionFlag = 1 := by omega
        simp [RollbackTransaction, txRollback, h1, h2, h3]
      · have h3 : b.myTransactionFlag ≠ 1 := by omega
        simp [RollbackTransaction, txRollback, h1, h2, h3]
    · have h3 : b.myTransactionFlag ≠ 1 := by omega
      simp [RollbackTransaction, txRollback, h1, h3]

theorem digitChar_isDigit (m : Nat) (h : m < 10) : (digitChar m).isDigit = true := by
  interval_cases m <;> decide

theorem digitChar_toNat (m : Nat) (h : m < 10) : (digitChar m).toNat = 48 + m := by
  interval_cases m <;> decide

theorem ofDigits_append_last (l : Chars) (c : Char) :
    ofDigits (l ++ [c]) = 10 * ofDigits l + (c.toNat - 48) := by
  simp [ofDigits, List.foldl_append]

theorem ofDigits_itoaCore (fuel n : Nat) (h : n < fuel) :
    ofDigits (itoaCore fuel n) = n := by
  induction fuel generalizing n with
  | zero => omega
  | succ fuel ih =>
    by_cases h10 : n < 10
    · have ht := digitChar_toNat n h10
      simp [itoaCore, h10, ofDigits, ht]
    · have hd : n / 10 < fuel := by
        have := Nat.div_lt_self (show 0 < n by omega) (show 1 < 10 by omega)
        omega
      have hm := digitChar_toNat (n % 10) (Nat.mod_lt _ (by omega))
      simp only [itoaCore, h10, if_false, ofDigits_append_last, ih (n / 10) hd, hm]
      omega

theorem itoa_inj {m n : Nat} (h : itoa m = itoa n) : m = n := by
  have hm := ofDigits_itoaCore (m + 1) m (by omega)
  have hn := ofDigits_itoaCore (n + 1) n (by omega)
  simp only [itoa] at h
  rw [← hm, h, hn]

theorem itoaCore_decomp (fuel n : Nat) (h : n < fuel) :
    ∃ l c, itoaCore fuel n = l ++ [c] ∧ c.isDigit = true := by
  cases fuel with
  | zero => omega
  | succ fuel =>
    by_cases h10 : n < 10
    · exact ⟨[], digitChar n, by simp [itoaCore, h10], digitChar_isDigit n h10⟩
    · exact ⟨itoaCore fuel (n / 10), digitChar (n % 10), by simp [itoaCore, h10],
        digitChar_isDigit _ (Nat.mod_lt _ (by omega))⟩

theorem itoa_decomp (n : Nat) : ∃ l c, itoa n = l ++ [c] ∧ c.isDigit = true :=
  itoaCore_decomp (n + 1) n (by omega)

theorem phs_cons (key : Chars) (i : Nat) (v : Chars) (vs : List Chars) :
    phs key i (v :: vs) =
      str ":" ++ ((key ++ str "_") ++ itoa i) ++
        (if vs.isEmpty then [] else str ",") ++ phs key (i + 1) vs := rfl

theorem phsC_cons (key : Chars) (i : Nat) (v : Chars) (vs : List Chars) :
    phsC key i (v :: vs) =
      str ":" ++ ((key ++ str "_") ++ itoa i) ++ str "," ++ phsC key (i + 1) vs := rfl

theorem phs_decomp (key : Chars) (i : Nat) (v : Chars) (vs : List Chars) :
    ∃ l c, phs key i (v :: vs) = l ++ [c] ∧ c.isDigit = true := by
  induction vs generalizing i v with
  | nil =>
    obtain ⟨l, c, hl, hc⟩ := itoa_decomp i
    refine ⟨str ":" ++ ((key ++ str "_") ++ l), c, ?_, hc⟩
    rw [phs_cons, hl]
    simp [phs, List.append_assoc]
  | cons w ws ih =>
    obtain ⟨l, c, hl, hc⟩ := ih (i + 1) w
    refine ⟨str ":" ++ ((key ++ str "_") ++ itoa i) ++ str "," ++ l, c, ?_, hc⟩
    rw [phs_cons, hl]
    simp [List.append_assoc]

theorem phsC_eq_phs (key : Chars) (i : Nat) (v : Chars) (vs : List Chars) :
    phsC key i (v :: vs) = phs key i (v :: vs) ++ str "," := by
  induction vs generalizing i v with
  | nil =>
    rw [phsC_cons, phs_cons]
    simp [phsC, phs]
  | cons w ws ih =>
    rw [phsC_cons, phs_cons, ih (i + 1) w]
    simp [List.append_assoc]

theorem listParamLoop_sql (key : Chars) (vs : List Chars) :
    ∀ (i : Nat) (sqlAcc : Chars) (ps : List (Chars × Option Chars)),
      (listParamLoop key i vs (sqlAcc, ps)).1 = sqlAcc ++ phsC key i vs := by
  induction vs with
  | nil => intro i sqlAcc ps; simp [listParamLoop, phsC]
  | cons v vs ih =>
    intro i sqlAcc ps
    simp [listParamLoop, phsC, ih (i + 1), List.append_assoc]

theorem listParamLoop_lookup_lt (key : Chars) (vs : List Chars) :
    ∀ (i m : Nat) (sqlAcc : Chars) (ps : List (Chars × Option Chars)), m < i →
      lookupP (listParamLoop key i vs (sqlAcc, ps)).2 ((key ++ str "_") ++ itoa m) =
        lookupP ps ((key ++ str "_") ++ itoa m) := by
  induction vs with
  | nil => intro i m sqlAcc ps hm; simp [listParamLoop]
  | cons v vs ih =>
    intro i m sqlAcc ps hm
    have hkey : (key ++ str "_") ++ itoa i ≠ (key ++ str "_") ++ itoa m := by
      intro he
      have : i = m := itoa_inj (List.append_cancel_left he)
      omega
    rw [listParamLoop, ih (i + 1) m _ _ (by omega)]
    exact lookupP_insertP_ne _ _ _ _ hkey

theorem listParamLoop_lookup (key : Chars) (vs : List Chars) :
    ∀ (i j : Nat) (sqlAcc : Chars) (ps : List (Chars × Option Chars))
      (hj : j < vs.length),
      lookupP (listParamLoop key i vs (sqlAcc, ps)).2 ((key ++ str "_") ++ itoa (i + j)) =
        some (some (vs.get ⟨j, hj⟩)) := by
  induction vs with
  | nil => intro i j sqlAcc ps hj; simp at hj
  | cons v vs ih =>
    intro i j sqlAcc ps hj
    cases j with
    | zero =>
      rw [listParamLoop]
      rw [show i + 0 = i by omega]
      rw [listParamLoop_lookup_lt key vs (i + 1) i _ _ (by omega)]
      simp [lookupP_insertP_self]
    | succ j2 =>
      rw [listParamLoop]
      rw [show i + (j2 + 1) = (i + 1) + j2 by omega]
      rw [ih (i + 1) j2 _ _ (by simpa using hj)]
      rfl

theorem goTrimRight_comma_append (l0 : Chars) (c : Char) (hc : c.isDigit = true) :
    goTrimRight ((l0 ++ [c]) ++ str ",") (str ",") = l0 ++ [c] := by
  have hne : c ≠ ',' := by
    intro h
    rw [h] at hc
    exact absurd hc (by decide)
  have hcont : (str ",").contains c = false := by
    simp [str, List.contains, hne]
  simp [goTrimRight, List.reverse_append, List.dropWhile, hcont, str, hne]

theorem addParamAsListForColumn_spec (b : Builder) (col key v : Chars)
    (vs2 : List Chars) :
    addParamAsListForColumn b col key (some (v :: vs2)) =
      { b with
        mySql := b.mySql ++ b.myParamPre ++ GetQuoted b col ++ b.myParamOperator ++
          str "(" ++ phs key 1 (v :: vs2) ++ str ")"
        myParams := (listParamLoop key 1 (v :: vs2)
          (b.mySql ++ b.myParamPre ++ GetQuoted b col ++ b.myParamOperator ++ str "(",
            b.myParams)).2 } := by
  obtain ⟨l, c, hl, hc⟩ := phs_decomp key 1 v vs2
  simp only [addParamAsListForColumn, List.isEmpty_cons, Bool.false_eq_true, if_false]
  congr 1
  rw [listParamLoop_sql, phsC_eq_phs, hl]
  generalize (b.mySql ++ b.myParamPre ++ GetQuoted b col ++ b.myParamOperator ++ str "(")
    = s0
  rw [show s0 ++ ((l ++ [c]) ++ str ",") = ((s0 ++ l) ++ [c]) ++ str "," from by
    simp [List.append_assoc]]
  rw [goTrimRight_comma_append (s0 ++ l) c hc]
  simp [List.append_assoc]

/-- C2: binding a key holding a non-empty value list remaps `=` to ` IN `
and `<>` to ` NOT IN ` (any other operator unchanged), appends
`<prefix><quoted column><operator>(:key_1,...,:key_n)`, stores one fresh
scalar parameter per element — `key_i` bound to the i-th element — and
restores the original operator afterwards. -/
theorem addingParam_set_spec (b : Builder) (col key : Chars) (vs : List Chars)
    (hSet : IsParamASet b key = true)
    (hList : GetParamSet b key = some vs)
    (hne : vs ≠ []) :
    (addingParam b col key).mySql =
      b.mySql ++ b.myParamPre ++ GetQuoted b col ++ setMappedOp b.myParamOperator ++
        str "(" ++ phs key 1 vs ++ str ")" ∧
    (addingParam b col key).myParamOperator = b.myParamOperator ∧
    (∀ j (hj : j < vs.length),
      lookupP (addingParam b col key).myParams ((key ++ str "_") ++ itoa (1 + j)) =
        some (some (vs.get ⟨j, hj⟩))) := by
  cases vs with
  | nil => exact absurd rfl hne
  | cons v vs2 =>
    have hguard : hasNonEmptySetFor b key = true := by
      simp [hasNonEmptySetFor, hSet, hList]
    refine ⟨?_, ?_, ?_⟩
    · rw [addingParam, if_pos hguard]
      simp only [hList, addParamAsListForColumn_spec]
      simp [GetQuoted, setMappedOp]
    · rw [addingParam, if_pos hguard]
    · intro j hj
      rw [addingParam, if_pos hguard]
      simp only [hList, addParamAsListForColumn_spec]
      exact listParamLoop_lookup key (v :: vs2) 1 j _ _ hj

/-- Witness for C2: `ids` bound to ["1","2","3"] with operator `=` on
column `id` renders `"id" IN (:ids_1,:ids_2,:ids_3)` and stores the three
suffixed parameters, restoring the `=` operator. -/
theorem addingParam_set_spec_witness :
    IsParamASet bC2 (str "ids") = true ∧
    (addingParam bC2 (str "id") (str "ids")).mySql =
      str " \"id\" IN (:ids_1,:ids_2,:ids_3)" ∧
    (addingParam bC2 (str "id") (str "ids")).myParamOperator = str "=" ∧
    lookupP (addingParam bC2 (str "id") (str "ids")).myParams (str "ids_1") =
      some (some (str "1")) ∧
    lookupP (addingParam bC2 (str "id") (str "ids")).myParams (str "ids_2") =
      some (some (str "2")) ∧
    lookupP (addingParam bC2 (str "id") (str "ids")).myParams (str "ids_3") =
      some (some (str "3")) := by
  have h := addingParam_set_spec bC2 (str "id") (str "ids")
    [str "1", str "2", str "3"] (by decide) (by decide) (by decide)
  refine ⟨by decide, h.1.trans (by decide), h.2.1.trans (by decide), ?_, ?_, ?_⟩
  · exact h.2.2 0 (by decide)
  · exact h.2.2 1 (by decide)
  · exact h.2.2 2 (by decide)

end SqlBits
